import Mathlib

/- Verification of the btc-forecast-nexus trading engine.

   This file shallowly embeds, over exact rationals, the indicator library
   (src/lib/indicators.ts), the signal aggregator (src/lib/forecast.ts) and the
   trading bot core (supabase/functions/trading-bot/index.ts): market analysis,
   risk-reward validation and the per-position lifecycle step.

   Modelling conventions, used uniformly below:
   - JavaScript numbers are rationals.  A value that can be NaN or undefined
     (indicator warm-up entries, out-of-range array reads) is an Option value,
     with none playing the NaN/undefined role; JS comparison operators return
     false whenever an operand is NaN or undefined, which the js* helpers
     reproduce.
   - Math.sqrt (used only inside the Bollinger-band standard deviation, an
     irrational operation) is abstracted as an explicit function parameter sq;
     no theorem below depends on its values.
   - Presentation-only string fields of the source (reasoning, skipReason,
     log messages, toFixed formatting) are not modelled; boolean or inductive
     values carrying the same decision content replace them. -/

/-- JS strict less-than on possibly-NaN/undefined operands. -/
def jsLt : Option ℚ → Option ℚ → Bool
  | some a, some b => decide (a < b)
  | _, _ => false

/-- JS strict greater-than on possibly-NaN/undefined operands. -/
def jsGt : Option ℚ → Option ℚ → Bool
  | some a, some b => decide (b < a)
  | _, _ => false

/-- JS less-or-equal on possibly-NaN/undefined operands. -/
def jsLe : Option ℚ → Option ℚ → Bool
  | some a, some b => decide (a ≤ b)
  | _, _ => false

/-- JS greater-or-equal on possibly-NaN/undefined operands. -/
def jsGe : Option ℚ → Option ℚ → Bool
  | some a, some b => decide (b ≤ a)
  | _, _ => false

/-- Array read `l[i]` where the array already stores possibly-NaN entries:
    out-of-range reads give undefined, i.e. none. -/
def idx (l : List (Option ℚ)) (i : ℕ) : Option ℚ :=
  (l.get? i).join

/-- Array read `l[last - k]` with JS semantics: a negative index reads
    undefined.  Natural subtraction would silently clamp to 0, so the
    underflow case is guarded explicitly. -/
def idxBack (l : List (Option ℚ)) (last k : ℕ) : Option ℚ :=
  if last < k then none else idx l (last - k)

/-- JS `arr.slice(a, b)` for 0 ≤ a ≤ b. -/
def sliceJS (l : List α) (a b : ℕ) : List α :=
  (l.drop a).take (b - a)

/-- JS `arr.reduce((x, y) => x + y, 0)` on a plain numeric array. -/
def sumList (l : List ℚ) : ℚ :=
  l.foldl (· + ·) 0

/-- Sum of a window that may contain NaN entries: one NaN poisons the sum,
    as in JS. -/
def sumOpt (l : List (Option ℚ)) : Option ℚ :=
  l.foldl (fun acc x =>
    match acc, x with
    | some a, some b => some (a + b)
    | _, _ => none) (some 0)

/-- JS `Math.max(...)` over a nonempty list (0 for the empty list, which the
    source never hits on the inputs the theorems quantify over). -/
def listMax : List ℚ → ℚ
  | [] => 0
  | x :: xs => xs.foldl max x

/-- JS `Math.min(...)` over a nonempty list. -/
def listMin : List ℚ → ℚ
  | [] => 0
  | x :: xs => xs.foldl min x

/- ===== Indicator library (src/lib/indicators.ts) ===== -/

/-- Tail of the EMA recurrence: given the previous EMA value e0, emit
    x*k + e0*(1-k) for each further data point. -/
def emaFrom (k e0 : ℚ) : List ℚ → List ℚ
  | [] => []
  | x :: xs =>
    let e := x * k + e0 * (1 - k)
    e :: emaFrom k e xs

/-- calculateEMA: seed = first data point (no warm-up NaN), then
    ema[i] = data[i]*k + ema[i-1]*(1-k) with k = 2/(period+1). -/
def calculateEMA (data : List ℚ) (period : ℕ) : List ℚ :=
  match data with
  | [] => []
  | d :: rest => d :: emaFrom (2 / ((period : ℚ) + 1)) d rest

/-- calculateSMA: trailing arithmetic mean, NaN before the warm-up window is
    full.  The input may itself carry NaN entries (the source applies SMA to
    the stochastic rawK array), which poison the window sum. -/
def calculateSMA (data : List (Option ℚ)) (period : ℕ) : List (Option ℚ) :=
  (List.range data.length).map (fun i =>
    if i + 1 < period then none
    else (sumOpt (sliceJS data (i + 1 - period) (i + 1))).map (· / (period : ℚ)))

/-- RSI value from smoothed average gain and loss: 100 when the average loss
    is exactly 0, else 100 - 100/(1 + gain/loss). -/
def rsiVal (g l : ℚ) : ℚ :=
  if l = 0 then 100 else 100 - 100 / (1 + g / l)

/-- Wilder recurrence of calculateRSI over the deltas after the seed window. -/
def rsiRec (period : ℕ) (g l : ℚ) : List ℚ → List ℚ
  | [] => []
  | d :: ds =>
    let g2 := (g * ((period : ℚ) - 1) + max d 0) / (period : ℚ)
    let l2 := (l * ((period : ℚ) - 1) + max (-d) 0) / (period : ℚ)
    rsiVal g2 l2 :: rsiRec period g2 l2 ds

/-- calculateRSI: `period` leading NaNs, a seed value from simple average
    gain/loss over the first `period` deltas, then Wilder smoothing.  When the
    series is shorter than period+1 the JS seed loop reads past the array and
    the seed entry is NaN as well. -/
def calculateRSI (closes : List ℚ) (period : ℕ) : List (Option ℚ) :=
  if closes.length < period + 1 then
    List.replicate (period + 1) none
  else
    let diffs := List.zipWith (· - ·) closes.tail closes
    let seedG := sumList ((diffs.take period).map (fun d => max d 0)) / (period : ℚ)
    let seedL := sumList ((diffs.take period).map (fun d => max (-d) 0)) / (period : ℚ)
    List.replicate period none
      ++ [some (rsiVal seedG seedL)]
      ++ (rsiRec period seedG seedL (diffs.drop period)).map some

/-- MACD arrays of calculateMACD, before the NaN-lifting into IndicatorResults
    (none of them carry NaN). -/
structure MACDRaw where
  macdLine : List ℚ
  signalLine : List ℚ
  histogram : List ℚ

/-- calculateMACD: macdLine = EMA(fast) - EMA(slow), signalLine =
    EMA(macdLine, signal), histogram = macdLine - signalLine. -/
def calculateMACD (closes : List ℚ) (fast slow signal : ℕ) : MACDRaw :=
  let emaFast := calculateEMA closes fast
  let emaSlow := calculateEMA closes slow
  let macdLine := List.zipWith (· - ·) emaFast emaSlow
  let signalLine := calculateEMA macdLine signal
  let histogram := List.zipWith (· - ·) macdLine signalLine
  ⟨macdLine, signalLine, histogram⟩

/-- Bollinger bands arrays. -/
structure BBRaw where
  upper : List (Option ℚ)
  middle : List (Option ℚ)
  lower : List (Option ℚ)

/-- calculateBollingerBands: middle = SMA(period), upper/lower = middle ±
    stdDev * sqrt(population variance of the trailing window).  Math.sqrt is
    the abstracted parameter sq, applied to the exact rational variance. -/
def calculateBollingerBands (sq : ℚ → ℚ) (closes : List ℚ) (period : ℕ)
    (stdDev : ℚ) : BBRaw :=
  let sma := calculateSMA (closes.map some) period
  let ul := (List.range closes.length).map (fun i =>
    if i + 1 < period then ((none : Option ℚ), (none : Option ℚ))
    else
      let window := sliceJS closes (i + 1 - period) (i + 1)
      let mean := (idx sma i).getD 0
      let variance := (window.foldl (fun s v => s + (v - mean) ^ 2) 0) / (period : ℚ)
      let std := sq variance
      (some (mean + stdDev * std), some (mean - stdDev * std)))
  ⟨ul.map Prod.fst, sma, ul.map Prod.snd⟩

/-- Stochastic %K/%D arrays. -/
structure StochRaw where
  k : List (Option ℚ)
  d : List (Option ℚ)

/-- calculateStochastic: rawK over the trailing high/low window (50 on a zero
    range), then SMA smoothing of %K and %D. -/
def calculateStochastic (highs lows closes : List ℚ) (period smoothK smoothD : ℕ) :
    StochRaw :=
  let rawK := (List.range closes.length).map (fun i =>
    if i + 1 < period then none
    else
      let hh := listMax (sliceJS highs (i + 1 - period) (i + 1))
      let ll := listMin (sliceJS lows (i + 1 - period) (i + 1))
      if hh = ll then some 50
      else some ((closes.getD i 0 - ll) / (hh - ll) * 100))
  let k := calculateSMA rawK smoothK
  let d := calculateSMA k smoothD
  ⟨k, d⟩

/-- True-range series: tr[0] = high-low, tr[i] = max(high-low,
    |high-prevClose|, |low-prevClose|). -/
def trList (highs lows closes : List ℚ) : List ℚ :=
  (List.range closes.length).map (fun i =>
    if i = 0 then highs.getD 0 0 - lows.getD 0 0
    else
      max (highs.getD i 0 - lows.getD i 0)
        (max |highs.getD i 0 - closes.getD (i - 1) 0|
          |lows.getD i 0 - closes.getD (i - 1) 0|))

/-- calculateATR: EMA of the true-range series. -/
def calculateATR (highs lows closes : List ℚ) (period : ℕ) : List ℚ :=
  calculateEMA (trList highs lows closes) period

/-- Tail of the OBV recurrence over (close, volume) pairs. -/
def obvAux (prevClose prevObv : ℚ) : List (ℚ × ℚ) → List ℚ
  | [] => []
  | (c, v) :: rest =>
    let o := if prevClose < c then prevObv + v
      else if c < prevClose then prevObv - v else prevObv
    o :: obvAux c o rest

/-- calculateOBV: cumulative volume sum, signed by the close-to-close move,
    starting at 0. -/
def calculateOBV (closes volumes : List ℚ) : List ℚ :=
  match closes, volumes with
  | c0 :: cs, _v0 :: vs => 0 :: obvAux c0 0 (cs.zip vs)
  | _, _ => []

/-- calculateWilliamsR: (highestHigh - close)/(highestHigh - lowestLow) * -100
    over the trailing window, -50 on a zero range, NaN before warm-up. -/
def calculateWilliamsR (highs lows closes : List ℚ) (period : ℕ) :
    List (Option ℚ) :=
  (List.range closes.length).map (fun i =>
    if i + 1 < period then none
    else
      let hh := listMax (sliceJS highs (i + 1 - period) (i + 1))
      let ll := listMin (sliceJS lows (i + 1 - period) (i + 1))
      if hh = ll then some (-50)
      else some ((hh - closes.getD i 0) / (hh - ll) * (-100)))

/-- ADX arrays. -/
structure ADXRaw where
  adx : List ℚ
  plusDI : List ℚ
  minusDI : List ℚ

/-- calculateADX: ±DM from consecutive high/low deltas, EMA smoothing, ±DI
    relative to ATR (0 when the ATR entry is 0, matching JS truthiness), DX,
    and ADX = EMA(DX). -/
def calculateADX (highs lows closes : List ℚ) (period : ℕ) : ADXRaw :=
  let plusDM := (List.range closes.length).map (fun i =>
    if i = 0 then 0
    else
      let upMove := highs.getD i 0 - highs.getD (i - 1) 0
      let downMove := lows.getD (i - 1) 0 - lows.getD i 0
      if downMove < upMove ∧ 0 < upMove then upMove else 0)
  let minusDM := (List.range closes.length).map (fun i =>
    if i = 0 then 0
    else
      let upMove := highs.getD i 0 - highs.getD (i - 1) 0
      let downMove := lows.getD (i - 1) 0 - lows.getD i 0
      if upMove < downMove ∧ 0 < downMove then downMove else 0)
  let atr := calculateEMA (trList highs lows closes) period
  let smoothPlus := calculateEMA plusDM period
  let smoothMinus := calculateEMA minusDM period
  let plusDI := List.zipWith (fun v a => if a = 0 then 0 else v / a * 100) smoothPlus atr
  let minusDI := List.zipWith (fun v a => if a = 0 then 0 else v / a * 100) smoothMinus atr
  let dx := List.zipWith (fun v m =>
    if v + m = 0 then 0 else |v - m| / (v + m) * 100) plusDI minusDI
  ⟨calculateEMA dx period, plusDI, minusDI⟩

/-- One step of the Parabolic SAR state machine; the state carries the SAR
    values so far, the trend direction, the extreme point and the current
    acceleration factor. -/
def sarStep (highs lows : List ℚ) (af maxAf : ℚ)
    (st : List ℚ × Bool × ℚ × ℚ) (j : ℕ) : List ℚ × Bool × ℚ × ℚ :=
  let i := j + 1
  let sars := st.1
  let isUp := st.2.1
  let ep := st.2.2.1
  let curAf := st.2.2.2
  let prevSar := (sars.getLast?).getD 0
  let newSar0 := prevSar + curAf * (ep - prevSar)
  if isUp then
    let newSar := min (min newSar0 (lows.getD (i - 1) 0))
      (if 1 < i then lows.getD (i - 2) 0 else lows.getD (i - 1) 0)
    if lows.getD i 0 < newSar then
      (sars ++ [ep], false, lows.getD i 0, af)
    else if ep < highs.getD i 0 then
      (sars ++ [newSar], true, highs.getD i 0, min (curAf + af) maxAf)
    else
      (sars ++ [newSar], true, ep, curAf)
  else
    let newSar := max (max newSar0 (highs.getD (i - 1) 0))
      (if 1 < i then highs.getD (i - 2) 0 else highs.getD (i - 1) 0)
    if newSar < highs.getD i 0 then
      (sars ++ [ep], true, highs.getD i 0, af)
    else if lows.getD i 0 < ep then
      (sars ++ [newSar], false, lows.getD i 0, min (curAf + af) maxAf)
    else
      (sars ++ [newSar], false, ep, curAf)

/-- calculateParabolicSAR: starts at lows[0] in an uptrend with ep = highs[0],
    then iterates the SAR recurrence. -/
def calculateParabolicSAR (highs lows : List ℚ) (af maxAf : ℚ) : List ℚ :=
  match lows with
  | [] => []
  | l0 :: _ =>
    ((List.range (highs.length - 1)).foldl (sarStep highs lows af maxAf)
      ([l0], true, highs.getD 0 0, af)).1

/-- calculateCMF: money-flow volume over the trailing window divided by the
    volume sum (0 on a zero candle range or zero volume sum), NaN before
    warm-up. -/
def calculateCMF (highs lows closes volumes : List ℚ) (period : ℕ) :
    List (Option ℚ) :=
  let mfv := (List.range closes.length).map (fun i =>
    let range := highs.getD i 0 - lows.getD i 0
    if range = 0 then 0
    else ((closes.getD i 0 - lows.getD i 0) - (highs.getD i 0 - closes.getD i 0))
      / range * volumes.getD i 0)
  (List.range closes.length).map (fun i =>
    if i + 1 < period then none
    else
      let mfvSum := sumList (sliceJS mfv (i + 1 - period) (i + 1))
      let volSum := sumList (sliceJS volumes (i + 1 - period) (i + 1))
      some (if volSum = 0 then 0 else mfvSum / volSum))

/-- Tail of the VWAP cumulative recurrence over (high, low, close, volume). -/
def vwapAux (cumTPV cumVol : ℚ) : List (ℚ × ℚ × ℚ × ℚ) → List ℚ
  | [] => []
  | (h, l, c, v) :: rest =>
    let tp := (h + l + c) / 3
    let ct := cumTPV + tp * v
    let cv := cumVol + v
    (if cv = 0 then c else ct / cv) :: vwapAux ct cv rest

/-- calculateVWAP: cumulative typical-price volume over cumulative volume
    (the close itself while the cumulative volume is 0). -/
def calculateVWAP (highs lows closes volumes : List ℚ) : List ℚ :=
  vwapAux 0 0 (List.zip highs (List.zip lows (List.zip closes volumes)))

/-- MACD arrays as stored in an IndicatorResults value. -/
structure MACDRes where
  macdLine : List (Option ℚ)
  signalLine : List (Option ℚ)
  histogram : List (Option ℚ)

/-- Bollinger arrays as stored in an IndicatorResults value. -/
structure BBRes where
  upper : List (Option ℚ)
  middle : List (Option ℚ)
  lower : List (Option ℚ)

/-- Stochastic arrays as stored in an IndicatorResults value. -/
structure StochRes where
  k : List (Option ℚ)
  d : List (Option ℚ)

/-- ADX arrays as stored in an IndicatorResults value. -/
structure ADXRes where
  adx : List (Option ℚ)
  plusDI : List (Option ℚ)
  minusDI : List (Option ℚ)

/-- IndicatorResults: the per-series parallel indicator arrays, each entry a
    possibly-NaN number. -/
structure IndicatorResults where
  ema50 : List (Option ℚ)
  ema200 : List (Option ℚ)
  sma20 : List (Option ℚ)
  rsi : List (Option ℚ)
  macd : MACDRes
  bollingerBands : BBRes
  stochastic : StochRes
  atr : List (Option ℚ)
  obv : List (Option ℚ)
  williamsR : List (Option ℚ)
  adx : ADXRes
  parabolicSAR : List (Option ℚ)
  cmf : List (Option ℚ)
  vwap : List (Option ℚ)

/-- Lift a NaN-free array into the possibly-NaN representation. -/
def liftQ (l : List ℚ) : List (Option ℚ) :=
  l.map some

/-- calculateAllIndicators with the source's default periods. -/
def calculateAllIndicators (sq : ℚ → ℚ) (closes highs lows volumes : List ℚ) :
    IndicatorResults :=
  let macdRaw := calculateMACD closes 12 26 9
  let bbRaw := calculateBollingerBands sq closes 20 2
  let stochRaw := calculateStochastic highs lows closes 14 3 3
  let adxRaw := calculateADX highs lows closes 14
  { ema50 := liftQ (calculateEMA closes 50)
    ema200 := liftQ (calculateEMA closes 200)
    sma20 := calculateSMA (closes.map some) 20
    rsi := calculateRSI closes 14
    macd := ⟨liftQ macdRaw.macdLine, liftQ macdRaw.signalLine, liftQ macdRaw.histogram⟩
    bollingerBands := ⟨bbRaw.upper, bbRaw.middle, bbRaw.lower⟩
    stochastic := ⟨stochRaw.k, stochRaw.d⟩
    atr := liftQ (calculateATR highs lows closes 14)
    obv := liftQ (calculateOBV closes volumes)
    williamsR := calculateWilliamsR highs lows closes 14
    adx := ⟨liftQ adxRaw.adx, liftQ adxRaw.plusDI, liftQ adxRaw.minusDI⟩
    parabolicSAR := liftQ (calculateParabolicSAR highs lows (1/50) (1/5))
    cmf := calculateCMF highs lows closes volumes 20
    vwap := liftQ (calculateVWAP highs lows closes volumes) }

/- ===== Trading bot core (supabase/functions/trading-bot/index.ts) =====
   The bot imports its indicator library from supabase/functions/_shared,
   which the source comments identify with the dashboard library embedded
   above ("Use the shared dashboard indicators"). -/

/-- One candle.  The reserved word `open` of the source is spelled open_. -/
structure Kline where
  time : ℤ
  open_ : ℚ
  high : ℚ
  low : ℚ
  close : ℚ
  volume : ℚ
deriving DecidableEq

/-- Placeholder candle for out-of-range reads; the source throws on such
    reads (undefined property access), so every theorem touching candle
    patterns is about series of length at least 3, where it is never used. -/
def defaultKline : Kline := ⟨0, 0, 0, 0, 0, 0⟩

/-- Indices of strict local minima over two neighbours on each side,
    mapped to their values (the supports loop of findSupportResistance). -/
def localMins (xs : List ℚ) : List ℚ :=
  ((List.range xs.length).filter (fun i =>
    decide (2 ≤ i ∧ i + 2 < xs.length ∧
      xs.getD i 0 < xs.getD (i - 1) 0 ∧ xs.getD i 0 < xs.getD (i - 2) 0 ∧
      xs.getD i 0 < xs.getD (i + 1) 0 ∧ xs.getD i 0 < xs.getD (i + 2) 0))).map
    (fun i => xs.getD i 0)

/-- Strict local maxima, the resistances loop of findSupportResistance. -/
def localMaxs (xs : List ℚ) : List ℚ :=
  ((List.range xs.length).filter (fun i =>
    decide (2 ≤ i ∧ i + 2 < xs.length ∧
      xs.getD (i - 1) 0 < xs.getD i 0 ∧ xs.getD (i - 2) 0 < xs.getD i 0 ∧
      xs.getD (i + 1) 0 < xs.getD i 0 ∧ xs.getD (i + 2) 0 < xs.getD i 0))).map
    (fun i => xs.getD i 0)

/-- Result of findSupportResistance. -/
structure SRResult where
  supports : List ℚ
  resistances : List ℚ
  doubleBottom : Bool
  failedBreakout : Bool
  nearSupport : Bool
  nearResistance : Bool
deriving DecidableEq

/-- findSupportResistance: local extrema of the trailing lookback window,
    double-bottom and failed-breakout detection, and the near-support /
    near-resistance proximity flags exactly as in the source:
    nearSupport when price is in [s*0.995, s*1.01] for some support s,
    nearResistance when price is in [r*0.99, r*1.005] for some resistance. -/
def findSupportResistance (highs lows closes : List ℚ) (lookback : ℕ) : SRResult :=
  let last := closes.length - 1
  let price := closes.getD last 0
  let recentLows := sliceJS lows (last - lookback) (last + 1)
  let recentHighs := sliceJS highs (last - lookback) (last + 1)
  let supports := localMins recentLows
  let resistances := localMaxs recentHighs
  let tolerance := price * (0.005 : ℚ)
  let doubleBottom := (supports.zip supports.tail).any
    (fun p => decide (|p.1 - p.2| < tolerance ∧ p.1 < price))
  let failedBreakout :=
    match resistances with
    | [] => false
    | r0 :: rs =>
      let nearest := rs.foldl (fun a b => if |a - price| < |b - price| then a else b) r0
      decide (nearest * (0.997 : ℚ) ≤ listMax (sliceJS highs (last - 5) (last + 1))
        ∧ price < nearest)
  let nearSupport := supports.any
    (fun s => decide (s * (0.995 : ℚ) ≤ price ∧ price ≤ s * (1.01 : ℚ)))
  let nearResistance := resistances.any
    (fun r => decide (r * (0.99 : ℚ) ≤ price ∧ price ≤ r * (1.005 : ℚ)))
  ⟨supports, resistances, doubleBottom, failedBreakout, nearSupport, nearResistance⟩

/-- detectRSIDivergence: scans the lookback window for a close/RSI divergence
    against the latest candle; RSI entries may be NaN, in which case the JS
    comparisons (and hence the divergence test) are false. -/
def detectRSIDivergence (closes : List ℚ) (rsiVals : List (Option ℚ))
    (lookback : ℕ) : Bool × Bool :=
  let last := closes.length - 1
  let start := last - lookback
  let idxs := (List.range closes.length).filter
    (fun i => decide (start + 2 ≤ i ∧ i + 1 < last))
  (idxs.any (fun i => decide (closes.getD last 0 < closes.getD i 0)
      && jsGt (idx rsiVals last) (idx rsiVals i) && jsLt (idx rsiVals i) (some 40)),
   idxs.any (fun i => decide (closes.getD i 0 < closes.getD last 0)
      && jsLt (idx rsiVals last) (idx rsiVals i) && jsGt (idx rsiVals i) (some 60)))

/-- Candlestick pattern flags. -/
structure PatternFlags where
  bullish : Bool
  bearish : Bool
  pattern : String
deriving DecidableEq

/-- detectCandlestickPatterns: hammer / shooting star on the last candle,
    else engulfing on the last two, else morning / evening star on the last
    three, translated check for check (the branches of each pair are mutually
    exclusive for the straight-line updates of the source). -/
def detectCandlestickPatterns (klines : List Kline) : PatternFlags :=
  let last := klines.length - 1
  let c := klines.getD last defaultKline
  let p := klines.getD (last - 1) defaultKline
  let pp := klines.getD (last - 2) defaultKline
  let bodyC := |c.close - c.open_|
  let rangeC := c.high - c.low
  let bodyP := |p.close - p.open_|
  let st1 : PatternFlags :=
    if 0 < rangeC then
      let lowerWick := min c.open_ c.close - c.low
      let upperWick := c.high - max c.open_ c.close
      let a : PatternFlags :=
        if bodyC * 2 < lowerWick ∧ upperWick < bodyC * (0.5 : ℚ)
        then ⟨true, false, "Hammer"⟩ else ⟨false, false, ""⟩
      if bodyC * 2 < upperWick ∧ lowerWick < bodyC * (0.5 : ℚ)
      then ⟨a.bullish, true, "Shooting Star"⟩ else a
    else ⟨false, false, ""⟩
  let st2 : PatternFlags :=
    if st1.bullish = false ∧ st1.bearish = false ∧ 0 < bodyP then
      let a : PatternFlags :=
        if p.close < p.open_ ∧ c.open_ < c.close ∧ p.open_ < c.close ∧ c.open_ < p.close
        then ⟨true, false, "Bullish Engulfing"⟩ else st1
      if p.open_ < p.close ∧ c.close < c.open_ ∧ c.close < p.open_ ∧ p.close < c.open_
      then ⟨a.bullish, true, "Bearish Engulfing"⟩ else a
    else st1
  if st2.bullish = false ∧ st2.bearish = false then
    let bodyPP := |pp.close - pp.open_|
    let a : PatternFlags :=
      if pp.close < pp.open_ ∧ bodyP < bodyPP * (0.3 : ℚ) ∧ c.open_ < c.close
          ∧ bodyPP * (0.5 : ℚ) < bodyC
      then ⟨true, false, "Morning Star"⟩ else st2
    if pp.open_ < pp.close ∧ bodyP < bodyPP * (0.3 : ℚ) ∧ c.close < c.open_
        ∧ bodyPP * (0.5 : ℚ) < bodyC
    then ⟨a.bullish, true, "Evening Star"⟩ else a
  else st2

/-- detectVolumeSpike: latest volume above 1.5x the trailing average; the JS
    source divides the window sum by the lookback constant even when fewer
    candles exist. -/
def detectVolumeSpike (volumes : List ℚ) (lookback : ℕ) : Bool :=
  let last := volumes.length - 1
  let avgVol := sumList (sliceJS volumes (last - lookback) last) / (lookback : ℚ)
  decide (avgVol * (1.5 : ℚ) < volumes.getD last 0)

/-- Which side of the Bollinger band the price sits on. -/
inductive BBSide
  | above
  | below
  | inside
deriving DecidableEq

/-- Result of priceOutsideBB2. -/
structure BBCheck where
  outside : Bool
  side : BBSide
deriving DecidableEq

/-- priceOutsideBB2: strictly outside either band; NaN bands compare false,
    leaving the price inside. -/
def priceOutsideBB2 (price : ℚ) (bbUpper bbLower : Option ℚ) : BBCheck :=
  if jsGt (some price) bbUpper then ⟨true, BBSide.above⟩
  else if jsLt (some price) bbLower then ⟨true, BBSide.below⟩
  else ⟨false, BBSide.inside⟩

/-- isChopZone: price within 20% of the EMA50/EMA200 spread around their
    midpoint (false when either EMA is NaN, as all JS comparisons with NaN
    are false). -/
def isChopZone (price : ℚ) (e50 e200 : Option ℚ) : Bool :=
  match e50, e200 with
  | some a, some b =>
    let midpoint := (a + b) / 2
    let range := |a - b|
    decide (0 < range ∧ |price - midpoint| < range * (0.2 : ℚ))
  | _, _ => false

/-- isLowVolumeEnvironment: latest volume below 40% of the trailing average
    (window sum divided by the lookback constant, as in the source). -/
def isLowVolumeEnvironment (volumes : List ℚ) (lookback : ℕ) : Bool :=
  let last := volumes.length - 1
  let avgVol := sumList (sliceJS volumes (last - lookback) last) / (lookback : ℚ)
  decide (volumes.getD last 0 < avgVol * (0.4 : ℚ))

/-- The bot's ternary bias. -/
inductive Bias
  | bullish
  | bearish
  | neutral
deriving DecidableEq

/-- The key/context/guardrail decision block of analyzeMarket (REQUIRED_KEYS
    = 3): set bias and entryAllowed from the key counts and context, then let
    the RSI guardrail veto, first the bullish side then the bearish side. -/
def entryDecision (bullKeys bearKeys : ℕ) (longContext shortContext : Bool)
    (lastRsi : Option ℚ) : Bias × Bool :=
  let p1 : Bias × Bool :=
    if 3 ≤ bullKeys ∧ longContext = true then (Bias.bullish, true)
    else if 3 ≤ bearKeys ∧ shortContext = true then (Bias.bearish, true)
    else (Bias.neutral, false)
  let p2 : Bias × Bool :=
    if p1.1 = Bias.bullish ∧ jsGt lastRsi (some 75) = true then (Bias.neutral, false) else p1
  if p2.1 = Bias.bearish ∧ jsLt lastRsi (some 25) = true then (Bias.neutral, false) else p2

/-- All values analyzeMarket derives from the candles before it assembles its
    result: the no-trade-zone flags, the context flags, the key counts and
    the latest indicator values. -/
structure MarketInputs where
  price : ℚ
  lastRsi : Option ℚ
  lastAtr : Option ℚ
  macdHist : Option ℚ
  e50 : Option ℚ
  e200 : Option ℚ
  chopZone : Bool
  lowVolume : Bool
  bullKeys : ℕ
  bearKeys : ℕ
  longContext : Bool
  shortContext : Bool

/-- The candle-to-inputs phase of analyzeMarket (steps 1-3 of the source). -/
def marketInputs (sq : ℚ → ℚ) (klines : List Kline) : MarketInputs :=
  let closes := klines.map Kline.close
  let highs := klines.map Kline.high
  let lows := klines.map Kline.low
  let volumes := klines.map Kline.volume
  let last := closes.length - 1
  let price := closes.getD last 0
  let ind := calculateAllIndicators sq closes highs lows volumes
  let chopZone := isChopZone price (idx ind.ema50 last) (idx ind.ema200 last)
  let lowVolume := isLowVolumeEnvironment volumes 50
  let sr := findSupportResistance highs lows closes 50
  let longContext := (sr.nearSupport || sr.doubleBottom)
    || (jsGt (some price) (idx ind.ema200 last)
        && jsGt (idx ind.ema50 last) (idx ind.ema200 last))
  let shortContext := (sr.nearResistance || sr.failedBreakout)
    || (jsLt (some price) (idx ind.ema200 last)
        && jsLt (idx ind.ema50 last) (idx ind.ema200 last))
  let rsiDiv := detectRSIDivergence closes ind.rsi 20
  let candles := detectCandlestickPatterns klines
  let volumeSpike := detectVolumeSpike volumes 20
  let prevMacdAbove := jsGt (idxBack ind.macd.macdLine last 1) (idxBack ind.macd.signalLine last 1)
  let currMacdAbove := jsGt (idx ind.macd.macdLine last) (idx ind.macd.signalLine last)
  let macdCrossoverBull := !prevMacdAbove && currMacdAbove
  let macdCrossoverBear := prevMacdAbove && !currMacdAbove
  let bbCheck := priceOutsideBB2 price (idx ind.bollingerBands.upper last)
    (idx ind.bollingerBands.lower last)
  let lastCandle := klines.getD last defaultKline
  let bullKeys := (if rsiDiv.1 then 1 else 0) + (if candles.bullish then 1 else 0)
    + (if volumeSpike && decide (lastCandle.open_ < lastCandle.close) then 1 else 0)
    + (if macdCrossoverBull then 1 else 0)
    + (if bbCheck.outside && decide (bbCheck.side = BBSide.below) then 1 else 0)
  let bearKeys := (if rsiDiv.2 then 1 else 0) + (if candles.bearish then 1 else 0)
    + (if volumeSpike && decide (lastCandle.close ≤ lastCandle.open_) then 1 else 0)
    + (if macdCrossoverBear then 1 else 0)
    + (if bbCheck.outside && decide (bbCheck.side = BBSide.above) then 1 else 0)
  { price := price, lastRsi := idx ind.rsi last, lastAtr := idx ind.atr last,
    macdHist := idx ind.macd.histogram last,
    e50 := idx ind.ema50 last, e200 := idx ind.ema200 last,
    chopZone := chopZone, lowVolume := lowVolume,
    bullKeys := bullKeys, bearKeys := bearKeys,
    longContext := longContext, shortContext := shortContext }

/-- The decision-relevant fields of the analyzeMarket result (the source's
    reasoning / skipReason strings are replaced by the chopZone / lowVolume
    booleans and the flags themselves; bbPosition and the echoed indicator
    arrays are presentation-only and omitted). -/
structure MarketAnalysis where
  bias : Bias
  score : ℚ
  bullKeys : ℕ
  bearKeys : ℕ
  rsi : Option ℚ
  macdHist : Option ℚ
  ema50 : Option ℚ
  ema200 : Option ℚ
  price : ℚ
  atr : Option ℚ
  entryAllowed : Bool
  longContext : Bool
  shortContext : Bool
  chopZone : Bool
  lowVolume : Bool
deriving DecidableEq

/-- The assembly phase of analyzeMarket: the early no-trade-zone return
    (neutral, entry disallowed, zero keys) or the full decision. -/
def mkAnalysis (m : MarketInputs) : MarketAnalysis :=
  if m.chopZone || m.lowVolume then
    { bias := Bias.neutral, score := 0, bullKeys := 0, bearKeys := 0,
      rsi := m.lastRsi, macdHist := m.macdHist, ema50 := m.e50, ema200 := m.e200,
      price := m.price, atr := m.lastAtr, entryAllowed := false,
      longContext := false, shortContext := false,
      chopZone := m.chopZone, lowVolume := m.lowVolume }
  else
    let de := entryDecision m.bullKeys m.bearKeys m.longContext m.shortContext m.lastRsi
    { bias := de.1,
      score := if de.1 = Bias.bullish then 1/2
        else if de.1 = Bias.bearish then -(1/2) else 0,
      bullKeys := m.bullKeys, bearKeys := m.bearKeys,
      rsi := m.lastRsi, macdHist := m.macdHist, ema50 := m.e50, ema200 := m.e200,
      price := m.price, atr := m.lastAtr, entryAllowed := de.2,
      longContext := m.longContext, shortContext := m.shortContext,
      chopZone := m.chopZone, lowVolume := m.lowVolume }

/-- analyzeMarket: indicators, no-trade zones, context filter, three-key
    system and guardrails over one candle series. -/
def analyzeMarket (sq : ℚ → ℚ) (klines : List Kline) : MarketAnalysis :=
  mkAnalysis (marketInputs sq klines)

/-- Reason tag of a validateRiskReward result; the source renders these as
    strings carrying the same data. -/
inductive RRReason
  | riskZero
  | accepted
  | belowMin
deriving DecidableEq

/-- Result of validateRiskReward; the source's ratio field is spelled rr. -/
structure RRCheck where
  valid : Bool
  rr : ℚ
  reason : RRReason
deriving DecidableEq

/-- validateRiskReward: risk = |entry - stop|, reward = |target - entry|;
    invalid on a zero risk, else valid exactly when reward/risk reaches the
    minimum ratio.  The side argument is never read. -/
def validateRiskReward (side : String) (entryPrice stopLoss takeProfit minRR : ℚ) :
    RRCheck :=
  let risk := |entryPrice - stopLoss|
  let reward := |takeProfit - entryPrice|
  if risk = 0 then ⟨false, 0, RRReason.riskZero⟩
  else
    let rr := reward / risk
    if minRR ≤ rr then ⟨true, rr, RRReason.accepted⟩
    else ⟨false, rr, RRReason.belowMin⟩

/- ===== Position lifecycle (the per-open-position loop body of serve) ===== -/

/-- Position side. -/
inductive Side
  | long
  | short
deriving DecidableEq

/-- Position status after a tick. -/
inductive PosStatus
  | open_
  | closed
  | liquidated
deriving DecidableEq

/-- Exit reason recorded on close; the two smart-exit causes (RSI extreme,
    MACD momentum) are collapsed into one tag. -/
inductive ExitReason
  | liquidation
  | stopLossHit
  | takeProfitHit
  | earlyExit
  | reversal
deriving DecidableEq

/-- An open position as read from bot_positions. -/
structure Position where
  side : Side
  entry_price : ℚ
  quantity : ℚ
  leverage : ℚ
  margin_used : ℚ
  stop_loss : ℚ
  take_profit : ℚ
deriving DecidableEq

/-- Unrealized PnL of a position at a price: (price-entry)*qty for a long,
    (entry-price)*qty for a short. -/
def positionPnl (pos : Position) (price : ℚ) : ℚ :=
  match pos.side with
  | Side.long => (price - pos.entry_price) * pos.quantity
  | Side.short => (pos.entry_price - price) * pos.quantity

/-- Unrealized PnL as a percentage of the margin. -/
def positionPnlPct (pos : Position) (price : ℚ) : ℚ :=
  positionPnl pos price / pos.margin_used * 100

/-- The ATR trailing-stop computation (step 4 of the lifecycle): inactive
    below 1% profit; at 1% the stop moves to break-even (the entry price);
    after at least one further 0.5% step it trails at price minus (long) or
    plus (short) 1.5*ATR; the
    result is clamped against the old stop in the favorable direction. -/
def trailStop (side : Side) (entry currentSL pnlPct price atr : ℚ) : ℚ :=
  if 1 ≤ pnlPct then
    match side with
    | Side.long =>
      let trailingSteps := ⌊(pnlPct - 1) / (0.5 : ℚ)⌋
      let atrTrailSL := if 0 < trailingSteps then price - (1.5 : ℚ) * atr else entry
      max (max currentSL entry) atrTrailSL
    | Side.short =>
      let trailingSteps := ⌊(pnlPct - 1) / (0.5 : ℚ)⌋
      let atrTrailSL := if 0 < trailingSteps then price + (1.5 : ℚ) * atr else entry
      min (min currentSL entry) atrTrailSL
  else currentSL

/-- Everything the tick writes for one open position: the resulting status
    and exit fields, the (possibly trailed) stop, whether the stop update was
    persisted, and the account balance after the position settles. -/
structure TickOutcome where
  status : PosStatus
  exitReason : Option ExitReason
  pnl : ℚ
  recordedPnl : Option ℚ
  recordedPnlPct : Option ℚ
  stop_loss : ℚ
  slPersisted : Bool
  balance : ℚ
deriving DecidableEq

/-- One tick of the lifecycle manager for one open position, the loop body of
    serve: liquidation, stop-loss, take-profit (each with `continue`), then
    the trailing-stop update (persisted only when changed), then smart early
    exit and signal-reversal exit.  atrOpt, rsiOpt, mhOpt, score and bias are
    the analysis values of this tick (analysis.atr falls back to 0 via the
    source's `|| 0`). -/
def tickPosition (price : ℚ) (atrOpt rsiOpt mhOpt : Option ℚ) (score : ℚ)
    (bias : Bias) (bal : ℚ) (pos : Position) : TickOutcome :=
  let pnl := positionPnl pos price
  let pnlPct := positionPnlPct pos price
  if pnlPct ≤ -90 then
    { status := PosStatus.liquidated, exitReason := some ExitReason.liquidation,
      pnl := pnl, recordedPnl := some (-pos.margin_used),
      recordedPnlPct := some (-100), stop_loss := pos.stop_loss,
      slPersisted := false, balance := bal - pos.margin_used }
  else if pos.stop_loss ≠ 0 ∧
      ((pos.side = Side.long ∧ price ≤ pos.stop_loss)
        ∨ (pos.side = Side.short ∧ pos.stop_loss ≤ price)) then
    { status := PosStatus.closed, exitReason := some ExitReason.stopLossHit,
      pnl := pnl, recordedPnl := some pnl, recordedPnlPct := some pnlPct,
      stop_loss := pos.stop_loss, slPersisted := false,
      balance := bal + pos.margin_used + pnl }
  else if pos.take_profit ≠ 0 ∧
      ((pos.side = Side.long ∧ pos.take_profit ≤ price)
        ∨ (pos.side = Side.short ∧ price ≤ pos.take_profit)) then
    { status := PosStatus.closed, exitReason := some ExitReason.takeProfitHit,
      pnl := pnl, recordedPnl := some pnl, recordedPnlPct := some pnlPct,
      stop_loss := pos.stop_loss, slPersisted := false,
      balance := bal + pos.margin_used + pnl }
  else
    let currentAtr := atrOpt.getD 0
    let newSL := trailStop pos.side pos.entry_price pos.stop_loss pnlPct price currentAtr
    let persisted := decide (newSL ≠ pos.stop_loss)
    let exit1 : Bool := (decide (pos.side = Side.long) && jsGt rsiOpt (some 75))
      || (decide (pos.side = Side.short) && jsLt rsiOpt (some 25))
    let exit2 : Bool := !exit1 && decide (20 ≤ pnlPct)
      && ((decide (pos.side = Side.long) && jsLt mhOpt (some 0) && decide (score < 0))
        || (decide (pos.side = Side.short) && jsGt mhOpt (some 0) && decide (0 < score)))
    if 15 ≤ pnlPct ∧ (exit1 || exit2) = true then
      { status := PosStatus.closed, exitReason := some ExitReason.earlyExit,
        pnl := pnl, recordedPnl := some pnl, recordedPnlPct := some pnlPct,
        stop_loss := newSL, slPersisted := persisted,
        balance := bal + pos.margin_used + pnl }
    else if (pos.side = Side.long ∧ bias = Bias.bearish)
        ∨ (pos.side = Side.short ∧ bias = Bias.bullish) then
      { status := PosStatus.closed, exitReason := some ExitReason.reversal,
        pnl := pnl, recordedPnl := some pnl, recordedPnlPct := some pnlPct,
        stop_loss := newSL, slPersisted := persisted,
        balance := bal + pos.margin_used + pnl }
    else
      { status := PosStatus.open_, exitReason := none, pnl := pnl,
        recordedPnl := none, recordedPnlPct := none,
        stop_loss := newSL, slPersisted := persisted, balance := bal }

/- ===== Signal aggregator (src/lib/forecast.ts, analyzeSignals) ===== -/

/-- A per-indicator vote. -/
inductive Vote
  | buy
  | sell
  | neutral
deriving DecidableEq

/-- One emitted signal; the source's displayValue / description strings are
    presentation-only and omitted. -/
structure Signal where
  name : String
  signal : Vote
deriving DecidableEq

/-- The aggregate ternary bias of analyzeSignals. -/
inductive TrendBias
  | Bullish
  | Bearish
  | Neutral
deriving DecidableEq

/-- The mutable accumulator of analyzeSignals: the signals list and the
    bullish / bearish / total counters. -/
structure SigAcc where
  signals : List Signal
  bullish : ℕ
  bearish : ℕ
  total : ℕ

/-- The vote encoded by the source's isBull argument (true / false / null). -/
def voteOf : Option Bool → Vote
  | some true => Vote.buy
  | some false => Vote.sell
  | none => Vote.neutral

/-- The addSignal closure of analyzeSignals: pushes a signal and bumps the
    counters. -/
def addSignal (acc : SigAcc) (name : String) (isBull : Option Bool) : SigAcc :=
  { signals := acc.signals ++ [⟨name, voteOf isBull⟩]
    bullish := acc.bullish + (if isBull = some true then 1 else 0)
    bearish := acc.bearish + (if isBull = some false then 1 else 0)
    total := acc.total + 1 }

/-- A guarded addSignal call: none means the indicator was skipped (its
    guard failed), some isBull means addSignal ran with that vote. -/
def maybeAdd (acc : SigAcc) (p : String × Option (Option Bool)) : SigAcc :=
  match p.2 with
  | none => acc
  | some isBull => addSignal acc p.1 isBull

/-- The eleven guarded addSignal calls of analyzeSignals, in source order,
    each evaluated at the latest index: the guard (outer Option) is the
    source's NaN check, the inner Option Bool is the isBull vote.  OBV and
    the already-guarded branches follow JS comparison semantics on NaN and
    out-of-range reads; the Bollinger branch spells out what the JS division
    by a zero band width produces (signed infinities or NaN). -/
def signalItems (ind : IndicatorResults) (closes : List ℚ) :
    List (String × Option (Option Bool)) :=
  let last := closes.length - 1
  let price := closes.getD last 0
  let rsiItem : Option (Option Bool) :=
    match idx ind.rsi last with
    | none => none
    | some r => some (if r < 30 then some true else if 70 < r then some false else none)
  let macdItem : Option (Option Bool) :=
    match idx ind.macd.macdLine last with
    | none => none
    | some mv =>
      let ms := idx ind.macd.signalLine last
      let pm := idxBack ind.macd.macdLine last 1
      let ps := idxBack ind.macd.signalLine last 1
      let cross := jsLe pm ps && jsGt (some mv) ms
      let crossDown := jsGe pm ps && jsLt (some mv) ms
      some (if cross then some true else if crossDown then some false
        else if jsGt (some mv) ms then some true else some false)
  let emaItem : Option (Option Bool) :=
    match idx ind.ema50 last, idx ind.ema200 last with
    | some a, some b => some (some (decide (b < a)))
    | _, _ => none
  let bbItem : Option (Option Bool) :=
    match idx ind.bollingerBands.upper last, idx ind.bollingerBands.lower last with
    | some up, some lo =>
      if up = lo then
        some (if lo < price then some false else if price < lo then some true else none)
      else
        let bbPos := (price - lo) / (up - lo)
        some (if bbPos < (0.2 : ℚ) then some true
          else if (0.8 : ℚ) < bbPos then some false else none)
    | _, _ => none
  let stochItem : Option (Option Bool) :=
    match idx ind.stochastic.k last with
    | none => none
    | some k => some (if k < 20 then some true else if 80 < k then some false else none)
  let adxItem : Option (Option Bool) :=
    match idx ind.adx.adx last with
    | none => none
    | some a => some (if 25 < a then
        some (jsGt (idx ind.adx.plusDI last) (idx ind.adx.minusDI last)) else none)
  let wrItem : Option (Option Bool) :=
    match idx ind.williamsR last with
    | none => none
    | some w => some (if w < -80 then some true else if -20 < w then some false else none)
  let cmfItem : Option (Option Bool) :=
    match idx ind.cmf last with
    | none => none
    | some cv => some (if (0.05 : ℚ) < cv then some true
        else if cv < -(0.05 : ℚ) then some false else none)
  let sarItem : Option (Option Bool) :=
    match idx ind.parabolicSAR last with
    | none => none
    | some s => some (some (decide (s < price)))
  let obvItem : Option (Option Bool) :=
    some (some (jsGt (idx ind.obv last) (idxBack ind.obv last 10)))
  let atrItem : Option (Option Bool) :=
    match idx ind.atr last with
    | none => none
    | some _ => some none
  [("RSI", rsiItem), ("MACD", macdItem), ("EMA 50/200", emaItem),
   ("Bollinger", bbItem), ("Stochastic", stochItem), ("ADX", adxItem),
   ("Williams %R", wrItem), ("CMF", cmfItem), ("Parabolic SAR", sarItem),
   ("OBV", obvItem), ("ATR", atrItem)]

/-- Result of analyzeSignals. -/
structure SignalAnalysis where
  signals : List Signal
  confidence : ℤ
  bias : TrendBias
deriving DecidableEq

/-- analyzeSignals: run the guarded addSignal calls, then
    confidence = round(max(bull, bear)/total * 100) (50 when nothing voted)
    and bias by majority. -/
def analyzeSignals (ind : IndicatorResults) (closes : List ℚ) : SignalAnalysis :=
  let acc := (signalItems ind closes).foldl maybeAdd ⟨[], 0, 0, 0⟩
  { signals := acc.signals
    confidence := if 0 < acc.total
      then round ((((max acc.bullish acc.bearish : ℕ) : ℚ) / (acc.total : ℚ)) * 100)
      else 50
    bias := if acc.bearish < acc.bullish then TrendBias.Bullish
      else if acc.bullish < acc.bearish then TrendBias.Bearish
      else TrendBias.Neutral }

/- ===== Theorems ===== -/

lemma emaFrom_length (k e0 : ℚ) (xs : List ℚ) :
    (emaFrom k e0 xs).length = xs.length := by
  induction xs generalizing e0 with
  | nil => rfl
  | cons x xs ih => simp [emaFrom, ih]

lemma emaFrom_getD (k e0 : ℚ) (xs : List ℚ) (i : ℕ) (hi : i < xs.length) :
    (emaFrom k e0 xs).getD i 0 =
      xs.getD i 0 * k + ((e0 :: emaFrom k e0 xs).getD i 0) * (1 - k) := by
  induction xs generalizing e0 i with
  | nil => simp at hi
  | cons x xs ih =>
    cases i with
    | zero => simp [emaFrom]
    | succ n =>
      have hn : n < xs.length := by simpa using hi
      simpa [emaFrom] using ih (x * k + e0 * (1 - k)) n hn

/-- C7: calculateEMA keeps the input length, seeds with the first data point
    (no warm-up NaN), satisfies ema[i] = data[i]*k + ema[i-1]*(1-k) with
    k = 2/(period+1), and each value is a convex combination of data[i] and
    ema[i-1]: it lies between them whenever they bracket it (period ≥ 1). -/
theorem calculateEMA_spec (data : List ℚ) (period : ℕ) (hp : 1 ≤ period) :
    (calculateEMA data period).length = data.length ∧
    (calculateEMA data period).head? = data.head? ∧
    (∀ i : ℕ, 1 ≤ i → i < data.length →
      (calculateEMA data period).getD i 0 =
        data.getD i 0 * (2 / ((period : ℚ) + 1)) +
          (calculateEMA data period).getD (i - 1) 0 * (1 - 2 / ((period : ℚ) + 1))) ∧
    (∀ i : ℕ, 1 ≤ i → i < data.length →
      (data.getD i 0 ≤ (calculateEMA data period).getD (i - 1) 0 →
        data.getD i 0 ≤ (calculateEMA data period).getD i 0 ∧
          (calculateEMA data period).getD i 0 ≤ (calculateEMA data period).getD (i - 1) 0) ∧
      ((calculateEMA data period).getD (i - 1) 0 ≤ data.getD i 0 →
        (calculateEMA data period).getD (i - 1) 0 ≤ (calculateEMA data period).getD i 0 ∧
          (calculateEMA data period).getD i 0 ≤ data.getD i 0)) := by
  have hk0 : (0 : ℚ) < 2 / ((period : ℚ) + 1) := by positivity
  have hk1 : 2 / ((period : ℚ) + 1) ≤ 1 := by
    rw [div_le_one (by positivity)]
    have : (1 : ℚ) ≤ (period : ℚ) := by exact_mod_cast hp
    linarith
  cases data with
  | nil =>
    refine ⟨rfl, rfl, ?_, ?_⟩ <;> intro i h1 h2 <;> simp at h2
  | cons d rest =>
    have hrec : ∀ i : ℕ, 1 ≤ i → i < (d :: rest).length →
        (calculateEMA (d :: rest) period).getD i 0 =
          (d :: rest).getD i 0 * (2 / ((period : ℚ) + 1)) +
            (calculateEMA (d :: rest) period).getD (i - 1) 0
              * (1 - 2 / ((period : ℚ) + 1)) := by
      intro i h1 h2
      cases i with
      | zero => omega
      | succ n =>
        have hn : n < rest.length := by
          simpa using h2
        simpa [calculateEMA] using
          emaFrom_getD (2 / ((period : ℚ) + 1)) d rest n hn
    refine ⟨by simp [calculateEMA, emaFrom_length], rfl, hrec, ?_⟩
    intro i h1 h2
    have h := hrec i h1 h2
    constructor
    · intro hb
      constructor
      · nlinarith [mul_nonneg (sub_nonneg.mpr hb) (sub_nonneg.mpr hk1)]
      · nlinarith [mul_nonneg (sub_nonneg.mpr hb) hk0.le]
    · intro hb
      constructor
      · nlinarith [mul_nonneg (sub_nonneg.mpr hb) hk0.le]
      · nlinarith [mul_nonneg (sub_nonneg.mpr hb) (sub_nonneg.mpr hk1)]

/-- C7 witness: the EMA contract evaluated on the series [1, 3] with
    period 1. -/
theorem calculateEMA_spec_witness :
    1 ≤ 1 ∧
      ((calculateEMA [(1 : ℚ), 3] 1).length = ([(1 : ℚ), 3] : List ℚ).length ∧
      (calculateEMA [(1 : ℚ), 3] 1).head? = ([(1 : ℚ), 3] : List ℚ).head? ∧
      (∀ i : ℕ, 1 ≤ i → i < ([(1 : ℚ), 3] : List ℚ).length →
        (calculateEMA [(1 : ℚ), 3] 1).getD i 0 =
          ([(1 : ℚ), 3] : List ℚ).getD i 0 * (2 / ((1 : ℕ) + 1 : ℚ)) +
            (calculateEMA [(1 : ℚ), 3] 1).getD (i - 1) 0 * (1 - 2 / ((1 : ℕ) + 1 : ℚ))) ∧
      (∀ i : ℕ, 1 ≤ i → i < ([(1 : ℚ), 3] : List ℚ).length →
        (([(1 : ℚ), 3] : List ℚ).getD i 0 ≤ (calculateEMA [(1 : ℚ), 3] 1).getD (i - 1) 0 →
          ([(1 : ℚ), 3] : List ℚ).getD i 0 ≤ (calculateEMA [(1 : ℚ), 3] 1).getD i 0 ∧
            (calculateEMA [(1 : ℚ), 3] 1).getD i 0 ≤ (calculateEMA [(1 : ℚ), 3] 1).getD (i - 1) 0) ∧
        ((calculateEMA [(1 : ℚ), 3] 1).getD (i - 1) 0 ≤ ([(1 : ℚ), 3] : List ℚ).getD i 0 →
          (calculateEMA [(1 : ℚ), 3] 1).getD (i - 1) 0 ≤ (calculateEMA [(1 : ℚ), 3] 1).getD i 0 ∧
            (calculateEMA [(1 : ℚ), 3] 1).getD i 0 ≤ ([(1 : ℚ), 3] : List ℚ).getD i 0))) :=
  ⟨by decide, calculateEMA_spec [1, 3] 1 (by decide)⟩

/-- C4: validateRiskReward is invalid exactly when risk = |entry - stop| is
    zero or reward/risk is strictly below the minimum ratio; the boundary
    reward/risk = minimum is accepted; on success the returned ratio is
    reward/risk.  The embedding is a pure function, so the call has no side
    effects by construction. -/
theorem validateRiskReward_spec (side : String) (entry stop target minRR : ℚ) :
    ((validateRiskReward side entry stop target minRR).valid = false ↔
      (|entry - stop| = 0 ∨ |target - entry| / |entry - stop| < minRR)) ∧
    ((validateRiskReward side entry stop target minRR).valid = true →
      (validateRiskReward side entry stop target minRR).rr =
        |target - entry| / |entry - stop|) ∧
    (|entry - stop| ≠ 0 → |target - entry| / |entry - stop| = minRR →
      (validateRiskReward side entry stop target minRR).valid = true) := by
  unfold validateRiskReward
  dsimp only
  split_ifs with h1 h2
  · exact ⟨by simp [h1], by simp, fun hc _ => absurd h1 hc⟩
  · exact ⟨by simp [h1, not_lt.mpr h2], fun _ => rfl, fun _ _ => rfl⟩
  · exact ⟨by simp [h1, not_le.mp h2], by simp, fun _ he => absurd (le_of_eq he.symm) h2⟩

/-- C9: validateRiskReward never reads its side argument: two runs that
    differ only in the side value return identical results. -/
theorem validateRiskReward_side_independent (s1 s2 : String)
    (entry stop target minRR : ℚ) :
    validateRiskReward s1 entry stop target minRR =
      validateRiskReward s2 entry stop target minRR := rfl

/-- C1: at or below -90% unrealized PnL the tick liquidates the position:
    status liquidated, recorded pnl = -margin_used, pnl_pct = -100, balance
    decreased by exactly margin_used, and no other transition runs this tick
    (the exit reason is liquidation and the stop is left untouched). -/
theorem liquidation_transition (price : ℚ) (atrOpt rsiOpt mhOpt : Option ℚ)
    (score : ℚ) (bias : Bias) (bal : ℚ) (pos : Position)
    (h : positionPnlPct pos price ≤ -90) :
    tickPosition price atrOpt rsiOpt mhOpt score bias bal pos =
      { status := PosStatus.liquidated, exitReason := some ExitReason.liquidation,
        pnl := positionPnl pos price, recordedPnl := some (-pos.margin_used),
        recordedPnlPct := some (-100), stop_loss := pos.stop_loss,
        slPersisted := false, balance := bal - pos.margin_used } := by
  simp only [tickPosition]
  rw [if_pos h]

/-- C1 witness: a 10x long from 100 with margin 10 marked at price 1 is
    990% under water and liquidates. -/
def liqPos : Position := ⟨Side.long, 100, 1, 10, 10, 50, 200⟩

unseal Rat.add Rat.mul Rat.sub Rat.inv Rat.ofScientific in
theorem liquidation_transition_witness :
    positionPnlPct liqPos 1 ≤ -90 ∧
      tickPosition 1 none none none 0 Bias.neutral 1000 liqPos =
        { status := PosStatus.liquidated, exitReason := some ExitReason.liquidation,
          pnl := positionPnl liqPos 1, recordedPnl := some (-liqPos.margin_used),
          recordedPnlPct := some (-100), stop_loss := liqPos.stop_loss,
          slPersisted := false, balance := 1000 - liqPos.margin_used } :=
  ⟨by decide, liquidation_transition 1 none none none 0 Bias.neutral 1000 liqPos (by decide)⟩

/-- C2: when one tick price has crossed both the stop and the target (in the
    side's adverse resp. favorable direction), and the liquidation check did
    not fire, the position closes by the stop-loss transition, not the
    take-profit one, and the later steps (trailing, early exit, reversal) are
    skipped: the stop is untouched and nothing else changes. -/
theorem stop_beats_take_profit (price : ℚ) (atrOpt rsiOpt mhOpt : Option ℚ)
    (score : ℚ) (bias : Bias) (bal : ℚ) (pos : Position)
    (hsl : pos.stop_loss ≠ 0)
    (hliq : ¬ positionPnlPct pos price ≤ -90)
    (hcross : (pos.side = Side.long ∧ price ≤ pos.stop_loss ∧ pos.take_profit ≤ price)
      ∨ (pos.side = Side.short ∧ pos.stop_loss ≤ price ∧ price ≤ pos.take_profit)) :
    tickPosition price atrOpt rsiOpt mhOpt score bias bal pos =
      { status := PosStatus.closed, exitReason := some ExitReason.stopLossHit,
        pnl := positionPnl pos price, recordedPnl := some (positionPnl pos price),
        recordedPnlPct := some (positionPnlPct pos price),
        stop_loss := pos.stop_loss, slPersisted := false,
        balance := bal + pos.margin_used + positionPnl pos price } := by
  have hslcond : pos.stop_loss ≠ 0 ∧
      ((pos.side = Side.long ∧ price ≤ pos.stop_loss)
        ∨ (pos.side = Side.short ∧ pos.stop_loss ≤ price)) := by
    rcases hcross with ⟨hs, h1, _⟩ | ⟨hs, h1, _⟩
    · exact ⟨hsl, Or.inl ⟨hs, h1⟩⟩
    · exact ⟨hsl, Or.inr ⟨hs, h1⟩⟩
  simp only [tickPosition]
  rw [if_neg hliq, if_pos hslcond]

/-- C2 witness: a 1x long from 100 with stop 95 and (degenerate) target 90
    at price 92 has crossed both levels; the tick closes it as a stop-loss. -/
def bothCrossPos : Position := ⟨Side.long, 100, 1, 1, 100, 95, 90⟩

unseal Rat.add Rat.mul Rat.sub Rat.inv Rat.ofScientific in
theorem stop_beats_take_profit_witness :
    (bothCrossPos.stop_loss ≠ 0 ∧
      ¬ positionPnlPct bothCrossPos 92 ≤ -90 ∧
      (bothCrossPos.side = Side.long ∧ (92 : ℚ) ≤ bothCrossPos.stop_loss ∧
        bothCrossPos.take_profit ≤ 92)) ∧
      tickPosition 92 none none none 0 Bias.neutral 1000 bothCrossPos =
        { status := PosStatus.closed, exitReason := some ExitReason.stopLossHit,
          pnl := positionPnl bothCrossPos 92,
          recordedPnl := some (positionPnl bothCrossPos 92),
          recordedPnlPct := some (positionPnlPct bothCrossPos 92),
          stop_loss := bothCrossPos.stop_loss, slPersisted := false,
          balance := 1000 + bothCrossPos.margin_used + positionPnl bothCrossPos 92 } :=
  ⟨by decide,
    stop_beats_take_profit 92 none none none 0 Bias.neutral 1000 bothCrossPos
      (by decide) (by decide) (Or.inl (by decide))⟩

lemma trail_steps_iff (p : ℚ) : 0 < ⌊(p - 1) / (0.5 : ℚ)⌋ ↔ (1.5 : ℚ) ≤ p := by
  rw [Int.lt_iff_add_one_le, zero_add, Int.le_floor]
  push_cast
  rw [le_div_iff₀ (by norm_num : (0 : ℚ) < 0.5)]
  constructor <;> intro h <;> linarith

lemma trailStop_long_eq (entry sl price atr p : ℚ) (hp : 1 ≤ p) :
    trailStop Side.long entry sl p price atr =
      max (max sl entry) (if (1.5 : ℚ) ≤ p then price - (1.5 : ℚ) * atr else entry) := by
  unfold trailStop
  rw [if_pos hp]
  simp only [trail_steps_iff]

lemma trailStop_short_eq (entry sl price atr p : ℚ) (hp : 1 ≤ p) :
    trailStop Side.short entry sl p price atr =
      min (min sl entry) (if (1.5 : ℚ) ≤ p then price + (1.5 : ℚ) * atr else entry) := by
  unfold trailStop
  rw [if_pos hp]
  simp only [trail_steps_iff]

lemma trailStop_long_ge (entry sl price atr p : ℚ) :
    sl ≤ trailStop Side.long entry sl p price atr := by
  unfold trailStop
  dsimp only
  split_ifs with h h2
  · exact le_trans (le_max_left _ _) (le_max_left _ _)
  · exact le_trans (le_max_left _ _) (le_max_left _ _)
  · exact le_refl sl

lemma trailStop_short_le (entry sl price atr p : ℚ) :
    trailStop Side.short entry sl p price atr ≤ sl := by
  unfold trailStop
  dsimp only
  split_ifs with h h2
  · exact le_trans (min_le_left _ _) (min_le_left _ _)
  · exact le_trans (min_le_left _ _) (min_le_left _ _)
  · exact le_refl sl

lemma tickPosition_stop_eq (price : ℚ) (atrOpt rsiOpt mhOpt : Option ℚ)
    (score : ℚ) (bias : Bias) (bal : ℚ) (pos : Position) :
    (tickPosition price atrOpt rsiOpt mhOpt score bias bal pos).stop_loss = pos.stop_loss ∨
    (tickPosition price atrOpt rsiOpt mhOpt score bias bal pos).stop_loss =
      trailStop pos.side pos.entry_price pos.stop_loss (positionPnlPct pos price) price
        (atrOpt.getD 0) := by
  simp only [tickPosition]
  split_ifs <;> simp

lemma tickPosition_persist (price : ℚ) (atrOpt rsiOpt mhOpt : Option ℚ)
    (score : ℚ) (bias : Bias) (bal : ℚ) (pos : Position) :
    ((tickPosition price atrOpt rsiOpt mhOpt score bias bal pos).slPersisted = true ↔
      (tickPosition price atrOpt rsiOpt mhOpt score bias bal pos).stop_loss ≠
        pos.stop_loss) := by
  simp only [tickPosition]
  split_ifs <;> simp

/-- C3: the trailing step never runs below 1% profit; at or above 1% the new
    stop is max(oldStop, breakEven, atrTrail) for a long and min(...) for a
    short, where breakEven is the entry price and the ATR trail (price minus
    or plus 1.5*ATR) replaces break-even exactly once profit reaches 1.5%,
    i.e. one full 0.5% step beyond the first 1%; the trailing result never
    moves the stop adversely, so over a whole tick the stored stop is
    non-decreasing for a long and non-increasing for a short, and the stop is
    persisted exactly when its value changed. -/
theorem trailing_stop_spec (entry sl price atr p : ℚ)
    (tickPrice : ℚ) (atrOpt rsiOpt mhOpt : Option ℚ) (score : ℚ) (bias : Bias)
    (bal : ℚ) (pos : Position) :
    (p < 1 → trailStop Side.long entry sl p price atr = sl ∧
      trailStop Side.short entry sl p price atr = sl) ∧
    (1 ≤ p → trailStop Side.long entry sl p price atr =
      max (max sl entry) (if (1.5 : ℚ) ≤ p then price - (1.5 : ℚ) * atr else entry)) ∧
    (1 ≤ p → trailStop Side.short entry sl p price atr =
      min (min sl entry) (if (1.5 : ℚ) ≤ p then price + (1.5 : ℚ) * atr else entry)) ∧
    sl ≤ trailStop Side.long entry sl p price atr ∧
    trailStop Side.short entry sl p price atr ≤ sl ∧
    (pos.side = Side.long →
      pos.stop_loss ≤
        (tickPosition tickPrice atrOpt rsiOpt mhOpt score bias bal pos).stop_loss) ∧
    (pos.side = Side.short →
      (tickPosition tickPrice atrOpt rsiOpt mhOpt score bias bal pos).stop_loss ≤
        pos.stop_loss) ∧
    ((tickPosition tickPrice atrOpt rsiOpt mhOpt score bias bal pos).slPersisted = true ↔
      (tickPosition tickPrice atrOpt rsiOpt mhOpt score bias bal pos).stop_loss ≠
        pos.stop_loss) := by
  refine ⟨?_, fun hp => trailStop_long_eq entry sl price atr p hp,
    fun hp => trailStop_short_eq entry sl price atr p hp,
    trailStop_long_ge entry sl price atr p,
    trailStop_short_le entry sl price atr p, ?_, ?_,
    tickPosition_persist tickPrice atrOpt rsiOpt mhOpt score bias bal pos⟩
  · intro hq
    have h := not_le.mpr hq
    constructor <;> (unfold trailStop; rw [if_neg h])
  · intro hs
    rcases tickPosition_stop_eq tickPrice atrOpt rsiOpt mhOpt score bias bal pos with h | h
    · rw [h]
    · rw [h, hs]
      exact trailStop_long_ge _ _ _ _ _
  · intro hs
    rcases tickPosition_stop_eq tickPrice atrOpt rsiOpt mhOpt score bias bal pos with h | h
    · rw [h]
    · rw [h, hs]
      exact trailStop_short_le _ _ _ _ _

lemma entryDecision_entry (bk brk : ℕ) (lc sc : Bool) (rsi : Option ℚ)
    (h : (entryDecision bk brk lc sc rsi).2 = true) :
    ((entryDecision bk brk lc sc rsi).1 = Bias.bullish ∧ 3 ≤ bk ∧ lc = true ∧
      jsGt rsi (some 75) = false) ∨
    ((entryDecision bk brk lc sc rsi).1 = Bias.bearish ∧ 3 ≤ brk ∧ sc = true ∧
      jsLt rsi (some 25) = false) := by
  unfold entryDecision at h ⊢
  by_cases c1 : 3 ≤ bk ∧ lc = true
  · by_cases g1 : jsGt rsi (some 75) = true
    · simp [c1, g1] at h
    · left
      simp [c1, g1]
  · by_cases c2 : 3 ≤ brk ∧ sc = true
    · by_cases g2 : jsLt rsi (some 25) = true
      · simp [c1, c2, g2] at h
      · right
        simp [c1, c2, g2]
    · simp [c1, c2] at h

lemma mkAnalysis_entry (m : MarketInputs)
    (h : (mkAnalysis m).entryAllowed = true) :
    ((mkAnalysis m).bias = Bias.bullish ∧ 3 ≤ (mkAnalysis m).bullKeys ∧
      (mkAnalysis m).longContext = true ∧
      jsGt (mkAnalysis m).rsi (some 75) = false) ∨
    ((mkAnalysis m).bias = Bias.bearish ∧ 3 ≤ (mkAnalysis m).bearKeys ∧
      (mkAnalysis m).shortContext = true ∧
      jsLt (mkAnalysis m).rsi (some 25) = false) := by
  unfold mkAnalysis at h ⊢
  split_ifs at h ⊢ with hc
  exact entryDecision_entry m.bullKeys m.bearKeys m.longContext m.shortContext m.lastRsi h

lemma mkAnalysis_no_trade (m : MarketInputs)
    (h : (mkAnalysis m).chopZone = true ∨ (mkAnalysis m).lowVolume = true) :
    (mkAnalysis m).entryAllowed = false := by
  unfold mkAnalysis at h ⊢
  split_ifs at h ⊢ with hc
  · rfl
  · rcases h with h | h
    · exact absurd (by rw [Bool.or_eq_true]; exact Or.inl h) hc
    · exact absurd (by rw [Bool.or_eq_true]; exact Or.inr h) hc

/-- C5: analyzeMarket allows an entry only when the three-part gate passes:
    at least 3 of the 5 directional keys fired on the chosen side, the
    matching context (long or short) holds, and the RSI guardrail does not
    veto (RSI > 75 blocks a bullish entry, RSI < 25 a bearish one, and a veto
    resets the bias to neutral); moreover a detected chop zone or low-volume
    environment always forces entryAllowed to false. -/
theorem analyzeMarket_gate (sq : ℚ → ℚ) (klines : List Kline) :
    ((analyzeMarket sq klines).entryAllowed = true →
      (((analyzeMarket sq klines).bias = Bias.bullish ∧
        3 ≤ (analyzeMarket sq klines).bullKeys ∧
        (analyzeMarket sq klines).longContext = true ∧
        jsGt (analyzeMarket sq klines).rsi (some 75) = false) ∨
      ((analyzeMarket sq klines).bias = Bias.bearish ∧
        3 ≤ (analyzeMarket sq klines).bearKeys ∧
        (analyzeMarket sq klines).shortContext = true ∧
        jsLt (analyzeMarket sq klines).rsi (some 25) = false))) ∧
    ((analyzeMarket sq klines).chopZone = true ∨
        (analyzeMarket sq klines).lowVolume = true →
      (analyzeMarket sq klines).entryAllowed = false) :=
  ⟨fun h => mkAnalysis_entry (marketInputs sq klines) h,
    fun h => mkAnalysis_no_trade (marketInputs sq klines) h⟩

/-- C10: whenever analyzeMarket allows an entry its bias is bullish or
    bearish, never neutral, so the entry code's side selection (long when
    bullish, otherwise short) cannot open a short off a neutral bias. -/
theorem analyzeMarket_entry_bias (sq : ℚ → ℚ) (klines : List Kline)
    (h : (analyzeMarket sq klines).entryAllowed = true) :
    (analyzeMarket sq klines).bias = Bias.bullish ∨
      (analyzeMarket sq klines).bias = Bias.bearish := by
  rcases mkAnalysis_entry (marketInputs sq klines) h with ⟨hb, _⟩ | ⟨hb, _⟩
  · exact Or.inl hb
  · exact Or.inr hb

/-- The abstracted Math.sqrt used by concrete evaluations; its value is
    irrelevant on series shorter than the Bollinger warm-up. -/
def sqZero : ℚ → ℚ := fun _ => 0

/-- C10 witness input: a three-candle series (down, down, strong hammer
    recovery on heavy volume) on which the bot fires a bullish entry with
    exactly the hammer, volume-spike and MACD-cross keys. -/
def entryKlines : List Kline :=
  [⟨0, 100, 101, 95, 100, 1⟩, ⟨1, 100, 100, 94, 95, 1⟩, ⟨2, 129, 130.2, 119, 130, 1⟩]

unseal Rat.add Rat.mul Rat.sub Rat.inv Rat.ofScientific in
theorem analyzeMarket_entry_bias_witness :
    (analyzeMarket sqZero entryKlines).entryAllowed = true ∧
      ((analyzeMarket sqZero entryKlines).bias = Bias.bullish ∨
        (analyzeMarket sqZero entryKlines).bias = Bias.bearish) := by
  have h : (analyzeMarket sqZero entryKlines).entryAllowed = true := by decide
  exact ⟨h, analyzeMarket_entry_bias sqZero entryKlines h⟩

/-- C8 counterexample data: lows carve a local minimum (support) at 100
    while the latest close is 99.6 — inside the code's near-support band
    [support*0.995, support*1.01] but strictly below the claimed band
    [support, support*1.01]. -/
def c8highs : List ℚ := [200, 200, 200, 200, 200, 200, 200]

def c8lows : List ℚ := [105, 104, 100, 103, 106, 107, 108]

def c8closes : List ℚ := [99.6, 99.6, 99.6, 99.6, 99.6, 99.6, 99.6]

/- C8 counterexample: the detector flags near-support although the latest
   price lies in no claimed interval [support, support*1.01] — the code
   band extends 0.5% below the support as well. -/
unseal Rat.add Rat.mul Rat.sub Rat.inv Rat.ofScientific in
theorem near_support_claim_false :
    (findSupportResistance c8highs c8lows c8closes 50).nearSupport = true ∧
      ∀ s ∈ (findSupportResistance c8highs c8lows c8closes 50).supports,
        ¬(s ≤ c8closes.getD (c8closes.length - 1) 0 ∧
          c8closes.getD (c8closes.length - 1) 0 ≤ s * (1.01 : ℚ)) := by
  decide

/-- C8 as amended: near-support holds exactly when the latest price lies in
    [support*0.995, support*1.01] for some detected support, and
    near-resistance exactly when it lies in [resistance*0.99,
    resistance*1.005] for some detected resistance. -/
theorem near_flags_spec (highs lows closes : List ℚ) (lookback : ℕ) :
    ((findSupportResistance highs lows closes lookback).nearSupport = true ↔
      ∃ s ∈ (findSupportResistance highs lows closes lookback).supports,
        s * (0.995 : ℚ) ≤ closes.getD (closes.length - 1) 0 ∧
          closes.getD (closes.length - 1) 0 ≤ s * (1.01 : ℚ)) ∧
    ((findSupportResistance highs lows closes lookback).nearResistance = true ↔
      ∃ r ∈ (findSupportResistance highs lows closes lookback).resistances,
        r * (0.99 : ℚ) ≤ closes.getD (closes.length - 1) 0 ∧
          closes.getD (closes.length - 1) 0 ≤ r * (1.005 : ℚ)) := by
  constructor <;>
    simp only [findSupportResistance, List.any_eq_true, decide_eq_true_eq]

lemma maybeAdd_counts (acc : SigAcc) (p : String × Option (Option Bool))
    (h1 : acc.bullish = acc.signals.countP (fun s => decide (s.signal = Vote.buy)))
    (h2 : acc.bearish = acc.signals.countP (fun s => decide (s.signal = Vote.sell)))
    (h3 : acc.total = acc.signals.length) :
    ((maybeAdd acc p).bullish =
      (maybeAdd acc p).signals.countP (fun s => decide (s.signal = Vote.buy))) ∧
    ((maybeAdd acc p).bearish =
      (maybeAdd acc p).signals.countP (fun s => decide (s.signal = Vote.sell))) ∧
    ((maybeAdd acc p).total = (maybeAdd acc p).signals.length) := by
  rcases p with ⟨name, v⟩
  match v with
  | none => exact ⟨h1, h2, h3⟩
  | some none =>
    refine ⟨?_, ?_, ?_⟩ <;>
      simp [maybeAdd, addSignal, voteOf, List.countP_append, List.countP_cons,
        h1, h2, h3]
  | some (some true) =>
    refine ⟨?_, ?_, ?_⟩ <;>
      simp [maybeAdd, addSignal, voteOf, List.countP_append, List.countP_cons,
        h1, h2, h3]
  | some (some false) =>
    refine ⟨?_, ?_, ?_⟩ <;>
      simp [maybeAdd, addSignal, voteOf, List.countP_append, List.countP_cons,
        h1, h2, h3]

lemma sigFold_counts (items : List (String × Option (Option Bool))) (acc : SigAcc)
    (h1 : acc.bullish = acc.signals.countP (fun s => decide (s.signal = Vote.buy)))
    (h2 : acc.bearish = acc.signals.countP (fun s => decide (s.signal = Vote.sell)))
    (h3 : acc.total = acc.signals.length) :
    ((items.foldl maybeAdd acc).bullish =
      (items.foldl maybeAdd acc).signals.countP (fun s => decide (s.signal = Vote.buy))) ∧
    ((items.foldl maybeAdd acc).bearish =
      (items.foldl maybeAdd acc).signals.countP (fun s => decide (s.signal = Vote.sell))) ∧
    ((items.foldl maybeAdd acc).total = (items.foldl maybeAdd acc).signals.length) := by
  induction items generalizing acc with
  | nil => exact ⟨h1, h2, h3⟩
  | cons p items ih =>
    obtain ⟨g1, g2, g3⟩ := maybeAdd_counts acc p h1 h2 h3
    simpa using ih (maybeAdd acc p) g1 g2 g3

/-- C6: analyzeSignals evaluates the latest index; its confidence is
    round(max(bullishCount, bearishCount)/totalCount * 100), 50 when
    totalCount is 0, where bullishCount / bearishCount / totalCount are
    exactly the buy / sell / all tallies of the emitted signals (one signal
    per non-skipped indicator, NaN entries skipped by the guards of the
    embedding); the bias is Bullish / Bearish by strict majority, else
    Neutral. -/
theorem analyzeSignals_spec (ind : IndicatorResults) (closes : List ℚ) :
    (analyzeSignals ind closes).confidence =
      (if 0 < (analyzeSignals ind closes).signals.length
        then round ((((max
            ((analyzeSignals ind closes).signals.countP
              (fun s => decide (s.signal = Vote.buy)))
            ((analyzeSignals ind closes).signals.countP
              (fun s => decide (s.signal = Vote.sell))) : ℕ) : ℚ) /
          (((analyzeSignals ind closes).signals.length : ℕ) : ℚ)) * 100)
        else (50 : ℤ)) ∧
    (analyzeSignals ind closes).bias =
      (if (analyzeSignals ind closes).signals.countP
            (fun s => decide (s.signal = Vote.sell)) <
          (analyzeSignals ind closes).signals.countP
            (fun s => decide (s.signal = Vote.buy))
        then TrendBias.Bullish
        else if (analyzeSignals ind closes).signals.countP
              (fun s => decide (s.signal = Vote.buy)) <
            (analyzeSignals ind closes).signals.countP
              (fun s => decide (s.signal = Vote.sell))
          then TrendBias.Bearish
          else TrendBias.Neutral) := by
  obtain ⟨h1, h2, h3⟩ :=
    sigFold_counts (signalItems ind closes) ⟨[], 0, 0, 0⟩ rfl rfl rfl
  simp only [analyzeSignals]
  rw [h1, h2, h3]
  exact ⟨rfl, rfl⟩
